import Mathlib

/-!
Shallow embedding of the iCloud photo downloader
(source: src/icloud_photo_downloader.py).

The pipeline walks a finite list of remote asset descriptors, derives a
local path root/YYYY/MM/filename from each asset creation date, skips the
asset when the path already exists, and otherwise streams the chosen
rendition to the path in 1 MiB chunks, counting every terminal outcome in
exactly one of two counters (downloaded_count, skipped_count).

Modelling decisions, each tied to a source line:
* photo.created (line 76): an optional Date; a missing creation date or a
  strftime failure is modelled as none, which the except-block of
  lines 82-86 turns into a skip.
* os.makedirs(full_path_dir) (line 80) can raise inside the same try-block;
  the environment records the set of directory paths on which makedirs
  raises (Env.mkdirErr).  A raising makedirs is caught by the except-block
  of lines 82-86 exactly like a missing date.
* photo.download / iter_content / file writing (lines 94-110): the remote
  behaviour of one asset is part of the descriptor.  fetchError means
  photo.download (or the open of the destination) raises before any byte
  reaches the destination; stream content none means the full byte list is
  delivered; stream content (some (k, e)) means the chunk iterator raises
  with message e after k chunks have been consumed and written.  Because
  the destination is opened under its final name (line 100), the chunks
  written before the failure stay on disk.
* The filesystem is a map from path strings to optional byte lists plus a
  set of created directories.  os.makedirs with exist_ok=True is modelled
  as marking the target directory path; intermediate parents are never
  queried by the program, so they are not tracked separately.
* tqdm progress rendering is not modelled; tqdm.write messages are kept in
  an ordered log so that the reported outcome of an item is observable.
-/

/-- Calendar date carried by photo.created; only the fields read by
strftime("%Y/%m") (line 78) are kept. -/
structure Date where
  year : Nat
  month : Nat
deriving DecidableEq

/-- Remote behaviour of one asset during lines 94-110.  fetchError e: the
fetch (or the open of the destination file) raises e before any byte is
written.  stream content none: the whole rendition content is delivered.
stream content (some (k, e)): the chunk iterator raises e after k chunks
were consumed and written to the destination. -/
inductive DownloadBehavior where
  | fetchError (emsg : String)
  | stream (content : List Nat) (failAfter : Option (Nat × String))
deriving DecidableEq

/-- One remote asset descriptor together with its remote behaviour. -/
structure Photo where
  filename : String
  created : Option Date
  behavior : DownloadBehavior
deriving DecidableEq

/-- Local filesystem: file contents by path, plus the set of directories
created so far. -/
structure FS where
  files : String → Option (List Nat)
  dirs : String → Bool

/-- Writing the destination file (lines 100-103): the path now maps to the
given byte list. -/
def FS.writeFile (fs : FS) (path : String) (content : List Nat) : FS :=
  { fs with files := fun q => if q = path then some content else fs.files q }

/-- os.makedirs(path, exist_ok=True): the directory path is marked created;
file contents are untouched. -/
def FS.mkdirs (fs : FS) (path : String) : FS :=
  { fs with dirs := fun q => if q = path then true else fs.dirs q }

/-- The initially-empty local tree. -/
def emptyFS : FS :=
  { files := fun _ => none, dirs := fun _ => false }

/-- Run environment: the set of directory paths on which os.makedirs
raises (permission or disk errors). -/
structure Env where
  mkdirErr : String → Bool

/-- DOWNLOAD_DIR constant (line 11). -/
def DOWNLOAD_DIR : String := "icloud_photo_backup"

/-- DOWNLOAD_SIZE constant (line 14); the selected rendition name. -/
def DOWNLOAD_SIZE : String := "original"

/-- strftime("%m"): months below 10 get a leading zero. -/
def pad2 (n : Nat) : String :=
  if n < 10 then "0" ++ toString n else toString n

/-- asset_date.strftime("%Y/%m") (line 78): decimal year, slash, two-digit
month. -/
def strftime_Y_m (d : Date) : String :=
  toString d.year ++ "/" ++ pad2 d.month

/-- os.path.join on POSIX for the paths built here. -/
def pathJoin (a b : String) : String :=
  a ++ "/" ++ b

/-- full_path_dir (line 79): DOWNLOAD_DIR joined with the YYYY/MM
subdirectory. -/
def full_path_dir_of (d : Date) : String :=
  pathJoin DOWNLOAD_DIR (strftime_Y_m d)

/-- full_path_file (line 81): the resolved destination path of an asset. -/
def full_path_of (d : Date) (filename : String) : String :=
  pathJoin (full_path_dir_of d) filename

/-- download.iter_content(chunk_size=n) (line 102): the byte list cut into
successive chunks of at most n bytes. -/
def iterContent (n : Nat) (content : List Nat) : List (List Nat) :=
  if content = [] ∨ n = 0 then []
  else content.take n :: iterContent n (content.drop n)
termination_by content.length
decreasing_by
  rename_i h
  push_neg at h
  have : 0 < content.length := List.length_pos.mpr h.1
  simp only [List.length_drop]
  omega

/-- Mutable run state of download_photos: the filesystem, the two
counters of lines 65-66, and the ordered log of tqdm.write messages. -/
structure RunState where
  fs : FS
  downloaded_count : Nat
  skipped_count : Nat
  log : List String

/-- State at the top of download_photos: zero counters, empty log. -/
def initState (fs : FS) : RunState :=
  { fs := fs, downloaded_count := 0, skipped_count := 0, log := [] }

/-- Message of line 84. -/
def missingDateMsg (filename : String) : String :=
  "\nSkipping item with missing date metadata: " ++ filename

/-- Message of line 109. -/
def downloadErrorMsg (filename emsg : String) : String :=
  "\n[ERROR] Failed to download " ++ filename ++ ": " ++ emsg

/-- Loop body of download_photos (lines 71-110): resolve the dated
directory, skip when the destination already exists, otherwise stream the
rendition, converting every per-item exception into a skip. -/
def processPhoto (env : Env) (s : RunState) (photo : Photo) : RunState :=
  match photo.created with
  | none =>
      { s with skipped_count := s.skipped_count + 1,
               log := s.log ++ [missingDateMsg photo.filename] }
  | some asset_date =>
      if env.mkdirErr (full_path_dir_of asset_date) then
        { s with skipped_count := s.skipped_count + 1,
                 log := s.log ++ [missingDateMsg photo.filename] }
      else
        let fs1 := s.fs.mkdirs (full_path_dir_of asset_date)
        let full_path_file := full_path_of asset_date photo.filename
        if (fs1.files full_path_file).isSome then
          { s with fs := fs1, skipped_count := s.skipped_count + 1 }
        else
          match photo.behavior with
          | .fetchError emsg =>
              { s with fs := fs1,
                       skipped_count := s.skipped_count + 1,
                       log := s.log ++ [downloadErrorMsg photo.filename emsg] }
          | .stream content (some fail) =>
              { s with fs := fs1.writeFile full_path_file
                         ((iterContent 1048576 content).take fail.1).flatten,
                       skipped_count := s.skipped_count + 1,
                       log := s.log ++ [downloadErrorMsg photo.filename fail.2] }
          | .stream content none =>
              { s with fs := fs1.writeFile full_path_file
                         (iterContent 1048576 content).flatten,
                       downloaded_count := s.downloaded_count + 1 }

/-- The for-loop of line 71: process the enumerated assets in order. -/
def runPhotos (env : Env) (s : RunState) (photos : List Photo) : RunState :=
  photos.foldl (processPhoto env) s

/-- download_photos (lines 54-116): create DOWNLOAD_DIR (line 59, outside
any per-item handler, so a failure there aborts the run, modelled as none)
and fold the loop body over the enumerated assets. -/
def download_photos (env : Env) (fs : FS) (photos : List Photo) :
    Option RunState :=
  if env.mkdirErr DOWNLOAD_DIR then none
  else some (runPhotos env (initState (fs.mkdirs DOWNLOAD_DIR)) photos)

/-- Cleaning of the entered password in main (line 127):
password.replace(" ", "").replace("-", "") on the character-list view of
the string; replacing a single-character pattern by the empty string
deletes every occurrence of that character. -/
def cleaned_password (password : List Char) : List Char :=
  (password.filter (fun c => c != ' ')).filter (fun c => c != '-')

/-- Behaviours whose fetch-or-write raises (lines 94-110 except-path). -/
def failsBehavior : DownloadBehavior → Bool
  | .fetchError _ => true
  | .stream _ (some _) => true
  | .stream _ none => false

/-- Resolved destination path of an asset (junk for undated assets, which
never reach the path). -/
def targetOf (p : Photo) : String :=
  match p.created with
  | some d => full_path_of d p.filename
  | none => ""

/-- Rendition byte content of an asset (junk when the fetch raises). -/
def contentOf (p : Photo) : List Nat :=
  match p.behavior with
  | .stream c _ => c
  | .fetchError _ => []

/-- The try-block of lines 75-86 raises for this asset: missing or
unformattable creation date, or a raising os.makedirs. -/
def resolveFails (env : Env) (p : Photo) : Bool :=
  match p.created with
  | none => true
  | some d => env.mkdirErr (full_path_dir_of d)

/-- On the given filesystem this asset ends in a skip: the resolver
raises, or the destination already exists, or the fetch-or-write raises. -/
def skipsOn (env : Env) (fs : FS) (p : Photo) : Bool :=
  resolveFails env p || (fs.files (targetOf p)).isSome || failsBehavior p.behavior

/-- Asset that resolves and whose full rendition arrives intact. -/
def isGood (env : Env) (p : Photo) : Bool :=
  !resolveFails env p && !failsBehavior p.behavior

theorem iterContent_flatten (n : Nat) (hn : n ≠ 0) (c : List Nat) :
    (iterContent n c).flatten = c := by
  induction c using iterContent.induct n with
  | case1 c hc =>
      rw [iterContent, if_pos hc]
      rcases hc with h | h
      · simp [h]
      · exact absurd h hn
  | case2 c hc ih =>
      rw [iterContent, if_neg hc]
      simp [ih]

theorem iterContent_chunk_le (n : Nat) (c : List Nat) :
    ∀ ch ∈ iterContent n c, ch.length ≤ n := by
  induction c using iterContent.induct n with
  | case1 c hc => rw [iterContent, if_pos hc]; simp
  | case2 c hc ih =>
      rw [iterContent, if_neg hc]
      intro ch hch
      rcases List.mem_cons.mp hch with h | h
      · subst h; exact List.length_take_le n c
      · exact ih ch h

theorem iterContent_append (n : Nat) (l r : List Nat) (hl : l.length = n)
    (hn : n ≠ 0) (hr : r ≠ []) :
    iterContent n (l ++ r) = l :: iterContent n r := by
  rw [iterContent]
  have h1 : ¬(l ++ r = [] ∨ n = 0) := by
    push_neg
    exact ⟨by simp [hr], hn⟩
  rw [if_neg h1, ← hl, List.take_left, List.drop_left]

theorem processPhoto_resolveFails (env : Env) (s : RunState) (p : Photo)
    (h : resolveFails env p = true) :
    processPhoto env s p =
      { s with skipped_count := s.skipped_count + 1,
               log := s.log ++ [missingDateMsg p.filename] } := by
  rcases p with ⟨fn, created, b⟩
  cases created with
  | none => simp [processPhoto]
  | some d =>
      simp only [resolveFails] at h
      simp [processPhoto, h]

theorem processPhoto_exists (env : Env) (s : RunState) (p : Photo) (d : Date)
    (hd : p.created = some d)
    (hm : env.mkdirErr (full_path_dir_of d) = false)
    (hex : (s.fs.files (full_path_of d p.filename)).isSome = true) :
    processPhoto env s p =
      { s with fs := s.fs.mkdirs (full_path_dir_of d),
               skipped_count := s.skipped_count + 1 } := by
  rcases p with ⟨fn, created, b⟩
  cases hd
  simp only at hm hex
  simp [processPhoto, hm, FS.mkdirs, hex]

theorem processPhoto_fetchError (env : Env) (s : RunState) (p : Photo)
    (d : Date) (emsg : String)
    (hd : p.created = some d) (hb : p.behavior = .fetchError emsg)
    (hm : env.mkdirErr (full_path_dir_of d) = false)
    (habs : s.fs.files (full_path_of d p.filename) = none) :
    processPhoto env s p =
      { s with fs := s.fs.mkdirs (full_path_dir_of d),
               skipped_count := s.skipped_count + 1,
               log := s.log ++ [downloadErrorMsg p.filename emsg] } := by
  rcases p with ⟨fn, created, b⟩
  cases hd
  cases hb
  simp only at hm habs
  simp [processPhoto, hm, FS.mkdirs, habs]

theorem processPhoto_streamFail (env : Env) (s : RunState) (p : Photo)
    (d : Date) (content : List Nat) (k : Nat) (emsg : String)
    (hd : p.created = some d) (hb : p.behavior = .stream content (some (k, emsg)))
    (hm : env.mkdirErr (full_path_dir_of d) = false)
    (habs : s.fs.files (full_path_of d p.filename) = none) :
    processPhoto env s p =
      { s with fs := (s.fs.mkdirs (full_path_dir_of d)).writeFile
                 (full_path_of d p.filename)
                 ((iterContent 1048576 content).take k).flatten,
               skipped_count := s.skipped_count + 1,
               log := s.log ++ [downloadErrorMsg p.filename emsg] } := by
  rcases p with ⟨fn, created, b⟩
  cases hd
  cases hb
  simp only at hm habs
  simp [processPhoto, hm, FS.mkdirs, habs]

theorem processPhoto_streamOk (env : Env) (s : RunState) (p : Photo)
    (d : Date) (content : List Nat)
    (hd : p.created = some d) (hb : p.behavior = .stream content none)
    (hm : env.mkdirErr (full_path_dir_of d) = false)
    (habs : s.fs.files (full_path_of d p.filename) = none) :
    processPhoto env s p =
      { s with fs := (s.fs.mkdirs (full_path_dir_of d)).writeFile
                 (full_path_of d p.filename)
                 (iterContent 1048576 content).flatten,
               downloaded_count := s.downloaded_count + 1 } := by
  rcases p with ⟨fn, created, b⟩
  cases hd
  cases hb
  simp only at hm habs
  simp [processPhoto, hm, FS.mkdirs, habs]

theorem resolveFails_false (env : Env) (p : Photo)
    (h : resolveFails env p = false) :
    ∃ d, p.created = some d ∧ env.mkdirErr (full_path_dir_of d) = false := by
  rcases p with ⟨fn, created, b⟩
  cases created with
  | none => simp [resolveFails] at h
  | some d =>
      simp only [resolveFails] at h
      exact ⟨d, rfl, h⟩

theorem processPhoto_files_frame (env : Env) (s : RunState) (p : Photo)
    (q : String) (hq : q ≠ targetOf p) :
    (processPhoto env s p).fs.files q = s.fs.files q := by
  cases hr : resolveFails env p with
  | true => rw [processPhoto_resolveFails env s p hr]
  | false =>
      obtain ⟨d, hd, hm⟩ := resolveFails_false env p hr
      have htarget : targetOf p = full_path_of d p.filename := by
        simp [targetOf, hd]
      rw [htarget] at hq
      cases hex : (s.fs.files (full_path_of d p.filename)).isSome with
      | true =>
          rw [processPhoto_exists env s p d hd hm hex]
          simp [FS.mkdirs]
      | false =>
          have habs : s.fs.files (full_path_of d p.filename) = none :=
            Option.not_isSome_iff_eq_none.mp (by simp [hex])
          rcases hb : p.behavior with emsg | ⟨content, failAfter⟩
          · rw [processPhoto_fetchError env s p d emsg hd hb hm habs]
            simp [FS.mkdirs]
          · rcases failAfter with _ | ⟨k, emsg⟩
            · rw [processPhoto_streamOk env s p d content hd hb hm habs]
              simp [FS.writeFile, FS.mkdirs, hq]
            · rw [processPhoto_streamFail env s p d content k emsg hd hb hm habs]
              simp [FS.writeFile, FS.mkdirs, hq]

theorem processPhoto_files_mono (env : Env) (s : RunState) (p : Photo)
    (q : String) (h : (s.fs.files q).isSome = true) :
    ((processPhoto env s p).fs.files q).isSome = true := by
  by_cases hq : q = targetOf p
  · cases hr : resolveFails env p with
    | true => rw [processPhoto_resolveFails env s p hr]; exact h
    | false =>
        obtain ⟨d, hd, hm⟩ := resolveFails_false env p hr
        have htarget : targetOf p = full_path_of d p.filename := by
          simp [targetOf, hd]
        cases hex : (s.fs.files (full_path_of d p.filename)).isSome with
        | true =>
            rw [processPhoto_exists env s p d hd hm hex]
            simpa [FS.mkdirs] using h
        | false =>
            rw [hq, htarget] at h
            rw [h] at hex
            simp at hex
  · rw [processPhoto_files_frame env s p q hq]
    exact h

theorem processPhoto_skips (env : Env) (s : RunState) (p : Photo)
    (h : skipsOn env s.fs p = true) :
    (processPhoto env s p).downloaded_count = s.downloaded_count ∧
    (processPhoto env s p).skipped_count = s.skipped_count + 1 := by
  cases hr : resolveFails env p with
  | true => rw [processPhoto_resolveFails env s p hr]; exact ⟨rfl, rfl⟩
  | false =>
      obtain ⟨d, hd, hm⟩ := resolveFails_false env p hr
      have htarget : targetOf p = full_path_of d p.filename := by
        simp [targetOf, hd]
      cases hex : (s.fs.files (full_path_of d p.filename)).isSome with
      | true =>
          rw [processPhoto_exists env s p d hd hm hex]
          exact ⟨rfl, rfl⟩
      | false =>
          have habs : s.fs.files (full_path_of d p.filename) = none :=
            Option.not_isSome_iff_eq_none.mp (by simp [hex])
          have hfail : failsBehavior p.behavior = true := by
            simp only [skipsOn, hr, htarget, hex, Bool.false_or] at h
            exact h
          rcases hb : p.behavior with emsg | ⟨content, failAfter⟩
          · rw [processPhoto_fetchError env s p d emsg hd hb hm habs]
            exact ⟨rfl, rfl⟩
          · rcases failAfter with _ | ⟨k, emsg⟩
            · rw [hb] at hfail; simp [failsBehavior] at hfail
            · rw [processPhoto_streamFail env s p d content k emsg hd hb hm habs]
              exact ⟨rfl, rfl⟩

theorem processPhoto_self_skips (env : Env) (s : RunState) (p : Photo) :
    skipsOn env (processPhoto env s p).fs p = true := by
  cases hr : resolveFails env p with
  | true => simp [skipsOn, hr]
  | false =>
      obtain ⟨d, hd, hm⟩ := resolveFails_false env p hr
      have htarget : targetOf p = full_path_of d p.filename := by
        simp [targetOf, hd]
      cases hfail : failsBehavior p.behavior with
      | true => simp [skipsOn, hfail]
      | false =>
          cases hex : (s.fs.files (full_path_of d p.filename)).isSome with
          | true =>
              have := processPhoto_files_mono env s p (full_path_of d p.filename) hex
              simp [skipsOn, htarget, this]
          | false =>
              have habs : s.fs.files (full_path_of d p.filename) = none :=
                Option.not_isSome_iff_eq_none.mp (by simp [hex])
              rcases hb : p.behavior with emsg | ⟨content, failAfter⟩
              · rw [hb] at hfail; simp [failsBehavior] at hfail
              · rcases failAfter with _ | ⟨k, emsg⟩
                · rw [processPhoto_streamOk env s p d content hd hb hm habs]
                  simp [skipsOn, htarget, FS.writeFile, FS.mkdirs]
                · rw [hb] at hfail; simp [failsBehavior] at hfail

theorem skipsOn_mono (env : Env) (s : RunState) (p q : Photo)
    (h : skipsOn env s.fs q = true) :
    skipsOn env (processPhoto env s p).fs q = true := by
  simp only [skipsOn, Bool.or_eq_true] at h ⊢
  rcases h with (h | h) | h
  · exact Or.inl (Or.inl h)
  · exact Or.inl (Or.inr (processPhoto_files_mono env s p (targetOf q) h))
  · exact Or.inr h

theorem runPhotos_nil (env : Env) (s : RunState) : runPhotos env s [] = s :=
  rfl

theorem runPhotos_cons (env : Env) (s : RunState) (p : Photo)
    (l : List Photo) :
    runPhotos env s (p :: l) = runPhotos env (processPhoto env s p) l :=
  rfl

theorem runPhotos_skipsOn_mono (env : Env) (l : List Photo) :
    ∀ (s : RunState) (q : Photo), skipsOn env s.fs q = true →
      skipsOn env (runPhotos env s l).fs q = true := by
  induction l with
  | nil => intro s q h; exact h
  | cons a t ih =>
      intro s q h
      rw [runPhotos_cons]
      exact ih (processPhoto env s a) q (skipsOn_mono env s a q h)

theorem runPhotos_all_skip (env : Env) (l : List Photo) :
    ∀ (s : RunState) (p : Photo), p ∈ l →
      skipsOn env (runPhotos env s l).fs p = true := by
  induction l with
  | nil => intro s p h; simp at h
  | cons a t ih =>
      intro s p hp
      rw [runPhotos_cons]
      rcases List.mem_cons.mp hp with h | h
      · subst h
        exact runPhotos_skipsOn_mono env t (processPhoto env s p) p
          (processPhoto_self_skips env s p)
      · exact ih (processPhoto env s a) p h

theorem runPhotos_all_skipped (env : Env) (l : List Photo) :
    ∀ (s : RunState), (∀ p ∈ l, skipsOn env s.fs p = true) →
      (runPhotos env s l).downloaded_count = s.downloaded_count ∧
      (runPhotos env s l).skipped_count = s.skipped_count + l.length := by
  induction l with
  | nil => intro s _; exact ⟨rfl, rfl⟩
  | cons a t ih =>
      intro s h
      rw [runPhotos_cons]
      have hstep := processPhoto_skips env s a (h a (List.mem_cons_self a t))
      have htail : ∀ p ∈ t, skipsOn env (processPhoto env s a).fs p = true :=
        fun p hp => skipsOn_mono env s a p (h p (List.mem_cons_of_mem a hp))
      obtain ⟨ihd, ihk⟩ := ih (processPhoto env s a) htail
      refine ⟨?_, ?_⟩
      · rw [ihd, hstep.1]
      · rw [ihk, hstep.2]
        simp [List.length_cons]
        omega

theorem processPhoto_counter_step (env : Env) (s : RunState) (p : Photo) :
    ((processPhoto env s p).downloaded_count = s.downloaded_count + 1 ∧
     (processPhoto env s p).skipped_count = s.skipped_count) ∨
    ((processPhoto env s p).downloaded_count = s.downloaded_count ∧
     (processPhoto env s p).skipped_count = s.skipped_count + 1) := by
  cases hr : resolveFails env p with
  | true => right; rw [processPhoto_resolveFails env s p hr]; exact ⟨rfl, rfl⟩
  | false =>
      obtain ⟨d, hd, hm⟩ := resolveFails_false env p hr
      cases hex : (s.fs.files (full_path_of d p.filename)).isSome with
      | true =>
          right
          rw [processPhoto_exists env s p d hd hm hex]
          exact ⟨rfl, rfl⟩
      | false =>
          have habs : s.fs.files (full_path_of d p.filename) = none :=
            Option.not_isSome_iff_eq_none.mp (by simp [hex])
          rcases hb : p.behavior with emsg | ⟨content, failAfter⟩
          · right
            rw [processPhoto_fetchError env s p d emsg hd hb hm habs]
            exact ⟨rfl, rfl⟩
          · rcases failAfter with _ | ⟨k, emsg⟩
            · left
              rw [processPhoto_streamOk env s p d content hd hb hm habs]
              exact ⟨rfl, rfl⟩
            · right
              rw [processPhoto_streamFail env s p d content k emsg hd hb hm habs]
              exact ⟨rfl, rfl⟩

theorem runPhotos_counter_sum (env : Env) (l : List Photo) :
    ∀ (s : RunState),
      (runPhotos env s l).downloaded_count + (runPhotos env s l).skipped_count
        = s.downloaded_count + s.skipped_count + l.length := by
  induction l with
  | nil => intro s; simp [runPhotos_nil]
  | cons a t ih =>
      intro s
      rw [runPhotos_cons]
      rcases processPhoto_counter_step env s a with ⟨h1, h2⟩ | ⟨h1, h2⟩ <;>
        rw [ih (processPhoto env s a), h1, h2] <;>
        simp [List.length_cons] <;> omega

theorem isGood_shape (env : Env) (p : Photo) (h : isGood env p = true) :
    ∃ d content, p.created = some d ∧
      env.mkdirErr (full_path_dir_of d) = false ∧
      p.behavior = .stream content none ∧ contentOf p = content := by
  simp only [isGood, Bool.and_eq_true, Bool.not_eq_true'] at h
  obtain ⟨d, hd, hm⟩ := resolveFails_false env p h.1
  rcases hb : p.behavior with emsg | ⟨content, failAfter⟩
  · rw [hb] at h; simp [failsBehavior] at h
  · rcases failAfter with _ | ⟨k, emsg⟩
    · exact ⟨d, content, hd, hm, rfl, by simp [contentOf, hb]⟩
    · rw [hb] at h; simp [failsBehavior] at h

theorem processPhoto_good (env : Env) (s : RunState) (p : Photo)
    (hg : isGood env p = true)
    (habs : s.fs.files (targetOf p) = none) :
    (processPhoto env s p).downloaded_count = s.downloaded_count + 1 ∧
    (processPhoto env s p).skipped_count = s.skipped_count ∧
    (processPhoto env s p).fs.files (targetOf p) = some (contentOf p) := by
  obtain ⟨d, content, hd, hm, hb, hc⟩ := isGood_shape env p hg
  have htarget : targetOf p = full_path_of d p.filename := by
    simp [targetOf, hd]
  rw [htarget] at habs
  rw [processPhoto_streamOk env s p d content hd hb hm habs]
  refine ⟨rfl, rfl, ?_⟩
  rw [htarget]
  simp [FS.writeFile, FS.mkdirs, hc,
    iterContent_flatten 1048576 (by decide) content]

theorem runPhotos_good (env : Env) (l : List Photo) :
    ∀ (s : RunState),
      (∀ p ∈ l, isGood env p = true) →
      (∀ p ∈ l, s.fs.files (targetOf p) = none) →
      List.Pairwise (fun a b => targetOf a ≠ targetOf b) l →
      (runPhotos env s l).downloaded_count = s.downloaded_count + l.length ∧
      (runPhotos env s l).skipped_count = s.skipped_count ∧
      (∀ p ∈ l, (runPhotos env s l).fs.files (targetOf p)
          = some (contentOf p)) ∧
      (∀ q, (∀ p ∈ l, q ≠ targetOf p) →
          (runPhotos env s l).fs.files q = s.fs.files q) := by
  induction l with
  | nil =>
      intro s _ _ _
      refine ⟨by simp [runPhotos_nil], by simp [runPhotos_nil], ?_, ?_⟩
      · intro p hp; simp at hp
      · intro q _; rfl
  | cons a t ih =>
      intro s hgood habs hdist
      rw [runPhotos_cons]
      have hga : isGood env a = true := hgood a (List.mem_cons_self a t)
      have haa : s.fs.files (targetOf a) = none :=
        habs a (List.mem_cons_self a t)
      obtain ⟨hd1, hk1, hf1⟩ := processPhoto_good env s a hga haa
      have hdistA : ∀ p ∈ t, targetOf a ≠ targetOf p :=
        (List.pairwise_cons.mp hdist).1
      have hdistT : List.Pairwise (fun x y => targetOf x ≠ targetOf y) t :=
        (List.pairwise_cons.mp hdist).2
      have habsT : ∀ p ∈ t,
          (processPhoto env s a).fs.files (targetOf p) = none := by
        intro p hp
        rw [processPhoto_files_frame env s a (targetOf p)
          (Ne.symm (hdistA p hp))]
        exact habs p (List.mem_cons_of_mem a hp)
      obtain ⟨ihd, ihk, ihf, ihframe⟩ :=
        ih (processPhoto env s a)
          (fun p hp => hgood p (List.mem_cons_of_mem a hp)) habsT hdistT
      refine ⟨?_, ?_, ?_, ?_⟩
      · rw [ihd, hd1]; simp [List.length_cons]; omega
      · rw [ihk, hk1]
      · intro p hp
        rcases List.mem_cons.mp hp with h | h
        · subst h
          rw [ihframe (targetOf p) (fun r hr => hdistA r hr)]
          exact hf1
        · exact ihf p h
      · intro q hq
        rw [ihframe q (fun p hp => hq p (List.mem_cons_of_mem a hp))]
        exact processPhoto_files_frame env s a q (hq a (List.mem_cons_self a t))

theorem runPhotos_append (env : Env) (s : RunState) (l₁ l₂ : List Photo) :
    runPhotos env s (l₁ ++ l₂) = runPhotos env (runPhotos env s l₁) l₂ := by
  simp [runPhotos, List.foldl_append]

theorem skipsOn_mkdirs (env : Env) (fs : FS) (dirp : String) (p : Photo) :
    skipsOn env (fs.mkdirs dirp) p = skipsOn env fs p :=
  rfl

/-- C1: running download_photos a second time against the same asset list,
starting from the local tree left by a first run that began on the empty
tree, downloads nothing: the second run ends with downloaded_count = 0 and
skipped_count equal to the number of enumerated assets, because every
asset either fails to resolve again, finds its destination path already
occupied, or fails its fetch again. -/
theorem C1_pipeline_idempotent (env : Env) (photos : List Photo)
    (s1 s2 : RunState)
    (h1 : download_photos env emptyFS photos = some s1)
    (h2 : download_photos env s1.fs photos = some s2) :
    s2.downloaded_count = 0 ∧ s2.skipped_count = photos.length := by
  cases hroot : env.mkdirErr DOWNLOAD_DIR with
  | true => rw [download_photos, if_pos hroot] at h1; cases h1
  | false =>
      rw [download_photos, if_neg (by simp [hroot])] at h1 h2
      injection h1 with h1
      injection h2 with h2
      have hall : ∀ p ∈ photos, skipsOn env s1.fs p = true := by
        intro p hp
        rw [← h1]
        exact runPhotos_all_skip env photos
          (initState (emptyFS.mkdirs DOWNLOAD_DIR)) p hp
      have hall2 : ∀ p ∈ photos,
          skipsOn env (initState (s1.fs.mkdirs DOWNLOAD_DIR)).fs p = true := by
        intro p hp
        rw [show (initState (s1.fs.mkdirs DOWNLOAD_DIR)).fs
            = s1.fs.mkdirs DOWNLOAD_DIR from rfl, skipsOn_mkdirs]
        exact hall p hp
      obtain ⟨hd, hk⟩ := runPhotos_all_skipped env photos
        (initState (s1.fs.mkdirs DOWNLOAD_DIR)) hall2
      rw [h2] at hd hk
      simp only [initState, Nat.zero_add] at hd hk
      exact ⟨hd, hk⟩

/-- Environment in which os.makedirs never raises; used by the concrete
witnesses. -/
def envOk : Env := ⟨fun _ => false⟩

/-- Concrete dated asset whose full two-byte rendition arrives intact. -/
def photoA : Photo := ⟨"IMG_A.JPG", some ⟨2023, 5⟩, .stream [1, 2] none⟩

/-- Witness for C1: one successfully downloaded asset is skipped by the
second run. -/
theorem C1_pipeline_idempotent_witness :
    (runPhotos envOk
      (initState
        ((runPhotos envOk (initState (emptyFS.mkdirs DOWNLOAD_DIR))
          [photoA]).fs.mkdirs DOWNLOAD_DIR))
      [photoA]).downloaded_count = 0 ∧
    (runPhotos envOk
      (initState
        ((runPhotos envOk (initState (emptyFS.mkdirs DOWNLOAD_DIR))
          [photoA]).fs.mkdirs DOWNLOAD_DIR))
      [photoA]).skipped_count = 1 :=
  C1_pipeline_idempotent envOk [photoA] _ _ rfl rfl

/-- C4: one iterated asset moves exactly one of the two counters up by
exactly one, whatever its outcome; hence over a whole run the two counters
sum to the number of iterated assets, and a completed download_photos run
reports downloaded_count + skipped_count = total number of assets. -/
theorem C4_counter_exactness (env : Env) (s : RunState) (p : Photo)
    (photos : List Photo) (fs : FS) :
    (((processPhoto env s p).downloaded_count = s.downloaded_count + 1 ∧
      (processPhoto env s p).skipped_count = s.skipped_count) ∨
     ((processPhoto env s p).downloaded_count = s.downloaded_count ∧
      (processPhoto env s p).skipped_count = s.skipped_count + 1)) ∧
    ((runPhotos env s photos).downloaded_count
        + (runPhotos env s photos).skipped_count
      = s.downloaded_count + s.skipped_count + photos.length) ∧
    (∀ st, download_photos env fs photos = some st →
      st.downloaded_count + st.skipped_count = photos.length) := by
  refine ⟨processPhoto_counter_step env s p,
    runPhotos_counter_sum env photos s, ?_⟩
  intro st hst
  cases hroot : env.mkdirErr DOWNLOAD_DIR with
  | true => rw [download_photos, if_pos hroot] at hst; cases hst
  | false =>
      rw [download_photos, if_neg (by simp [hroot])] at hst
      injection hst with hst
      rw [← hst]
      have := runPhotos_counter_sum env photos
        (initState (fs.mkdirs DOWNLOAD_DIR))
      simpa [initState] using this

/-- Witness for C4: the implication in the third conjunct discharged on a
concrete one-element run. -/
theorem C4_counter_exactness_witness :
    (runPhotos envOk (initState (emptyFS.mkdirs DOWNLOAD_DIR))
        [photoA]).downloaded_count
      + (runPhotos envOk (initState (emptyFS.mkdirs DOWNLOAD_DIR))
        [photoA]).skipped_count = 1 :=
  (C4_counter_exactness envOk (initState emptyFS) photoA [photoA]
    emptyFS).2.2 _ rfl

/-- C5: an asset whose creation date is missing or unformattable is never
transferred: the state is unchanged except that skipped_count rises by one
and the missing-date message is logged; in particular no file is written,
no directory is created, and downloaded_count is unchanged.  The fold in
runPhotos then continues with the next asset. -/
theorem C5_missing_date_skip (env : Env) (s : RunState) (p : Photo)
    (hd : p.created = none) :
    processPhoto env s p
        = { s with skipped_count := s.skipped_count + 1,
                   log := s.log ++ [missingDateMsg p.filename] } ∧
    (processPhoto env s p).fs = s.fs ∧
    (processPhoto env s p).fs.dirs = s.fs.dirs ∧
    (processPhoto env s p).downloaded_count = s.downloaded_count := by
  have h : resolveFails env p = true := by
    rcases p with ⟨fn, created, b⟩
    cases hd
    rfl
  have he := processPhoto_resolveFails env s p h
  exact ⟨he, by rw [he], by rw [he], by rw [he]⟩

/-- Concrete asset with no creation date. -/
def photoNoDate : Photo := ⟨"IMG_0001.JPG", none, .stream [1] none⟩

/-- Witness for C5 at a concrete undated asset. -/
theorem C5_missing_date_skip_witness :
    processPhoto envOk (initState emptyFS) photoNoDate
        = { initState emptyFS with
              skipped_count := (initState emptyFS).skipped_count + 1,
              log := (initState emptyFS).log
                ++ [missingDateMsg photoNoDate.filename] } ∧
    (processPhoto envOk (initState emptyFS) photoNoDate).fs
        = (initState emptyFS).fs ∧
    (processPhoto envOk (initState emptyFS) photoNoDate).fs.dirs
        = (initState emptyFS).fs.dirs ∧
    (processPhoto envOk (initState emptyFS) photoNoDate).downloaded_count
        = (initState emptyFS).downloaded_count :=
  C5_missing_date_skip envOk (initState emptyFS) photoNoDate rfl

/-- Decimal numeral zero-padded to four digits, the spec-side reading of
the YYYY segment. -/
def specPad4 (n : Nat) : String :=
  if n < 10 then "000" ++ toString n
  else if n < 100 then "00" ++ toString n
  else if n < 1000 then "0" ++ toString n
  else toString n

/-- C6: the resolved destination path is the pure function
root/YYYY/MM/filename of (root, capture date, filename): DOWNLOAD_DIR,
then the zero-padded year and month, then the filename.  full_path_of is
a function, so repeated calls on the same triple agree definitionally.
The year hypothesis reflects that strftime("%Y") prints the year as a
plain decimal, which coincides with its four-digit zero-padded form for
all years from 1000 on (every photo year in practice). -/
theorem C6_path_determinism (d : Date) (filename : String)
    (hy : 1000 ≤ d.year) :
    full_path_of d filename
      = DOWNLOAD_DIR ++ "/" ++ specPad4 d.year ++ "/" ++ pad2 d.month
          ++ "/" ++ filename := by
  have h4 : specPad4 d.year = toString d.year := by
    unfold specPad4
    rw [if_neg (by omega), if_neg (by omega), if_neg (by omega)]
  simp [full_path_of, full_path_dir_of, pathJoin, strftime_Y_m, h4,
    String.append_assoc]

/-- Witness for C6 on a concrete date and filename. -/
theorem C6_path_determinism_witness :
    1000 ≤ (2023 : Nat) ∧
    full_path_of ⟨2023, 5⟩ "IMG_0042.JPG"
      = DOWNLOAD_DIR ++ "/" ++ specPad4 2023 ++ "/" ++ pad2 5
          ++ "/" ++ "IMG_0042.JPG" :=
  ⟨by decide, C6_path_determinism ⟨2023, 5⟩ "IMG_0042.JPG" (by decide)⟩

/-- C7: when the resolved destination path is already occupied, whatever
the size or content of the occupying file, the whole filesystem content
map is unchanged (nothing is overwritten, re-verified or transferred),
downloaded_count is unchanged, and the asset is counted as skipped. -/
theorem C7_dedup_guard (env : Env) (s : RunState) (p : Photo) (d : Date)
    (hd : p.created = some d)
    (hm : env.mkdirErr (full_path_dir_of d) = false)
    (hex : (s.fs.files (full_path_of d p.filename)).isSome = true) :
    (∀ q, (processPhoto env s p).fs.files q = s.fs.files q) ∧
    (processPhoto env s p).downloaded_count = s.downloaded_count ∧
    (processPhoto env s p).skipped_count = s.skipped_count + 1 := by
  rw [processPhoto_exists env s p d hd hm hex]
  exact ⟨fun q => rfl, rfl, rfl⟩

/-- Local tree already holding a two-byte file at the destination path of
photoA; the remote rendition of photoA differs from it. -/
def fsPre : FS :=
  emptyFS.writeFile (full_path_of ⟨2023, 5⟩ "IMG_A.JPG") [9, 9]

/-- Witness for C7: the occupying bytes [9, 9] survive even though the
remote rendition of photoA is [1, 2]. -/
theorem C7_dedup_guard_witness :
    (processPhoto envOk (initState fsPre) photoA).fs.files
        (full_path_of ⟨2023, 5⟩ "IMG_A.JPG")
      = (initState fsPre).fs.files (full_path_of ⟨2023, 5⟩ "IMG_A.JPG") ∧
    (processPhoto envOk (initState fsPre) photoA).downloaded_count
      = (initState fsPre).downloaded_count ∧
    (processPhoto envOk (initState fsPre) photoA).skipped_count
      = (initState fsPre).skipped_count + 1 := by
  have h := C7_dedup_guard envOk (initState fsPre) photoA ⟨2023, 5⟩ rfl rfl
    (by simp [fsPre, initState, FS.writeFile, emptyFS, photoA])
  exact ⟨h.1 _, h.2.1, h.2.2⟩

/-- C8: a successful transfer writes at the resolved path exactly the
in-order concatenation of the chunk stream produced by
iter_content(chunk_size=1048576); that concatenation is byte-for-byte the
remote rendition, every chunk is at most 1048576 bytes long, and the
asset is counted as downloaded. -/
theorem C8_chunked_transfer (env : Env) (s : RunState) (p : Photo)
    (d : Date) (content : List Nat)
    (hd : p.created = some d)
    (hb : p.behavior = .stream content none)
    (hm : env.mkdirErr (full_path_dir_of d) = false)
    (habs : s.fs.files (full_path_of d p.filename) = none) :
    (processPhoto env s p).fs.files (full_path_of d p.filename)
        = some ((iterContent 1048576 content).flatten) ∧
    (iterContent 1048576 content).flatten = content ∧
    (∀ ch ∈ iterContent 1048576 content, ch.length ≤ 1048576) ∧
    (processPhoto env s p).downloaded_count = s.downloaded_count + 1 := by
  rw [processPhoto_streamOk env s p d content hd hb hm habs]
  refine ⟨?_, iterContent_flatten 1048576 (by decide) content,
    iterContent_chunk_le 1048576 content, rfl⟩
  simp [FS.writeFile, FS.mkdirs]

/-- Witness for C8: photoA lands on disk as exactly its rendition
bytes [1, 2]. -/
theorem C8_chunked_transfer_witness :
    (processPhoto envOk (initState emptyFS) photoA).fs.files
        (full_path_of ⟨2023, 5⟩ "IMG_A.JPG") = some [1, 2] ∧
    (processPhoto envOk (initState emptyFS) photoA).downloaded_count = 1 := by
  have h := C8_chunked_transfer envOk (initState emptyFS) photoA ⟨2023, 5⟩
    [1, 2] rfl rfl rfl rfl
  exact ⟨h.2.1 ▸ h.1, h.2.2.2⟩

/-- C9: the credential actually handed to PyiCloudService is the entered
password with every space and every hyphen removed (line 127): it equals
the filter removing those characters, two entered passwords that differ
only in spaces and hyphens clean to the same credential, and a password
containing a space or a hyphen is never submitted verbatim. -/
theorem C9_password_cleaning (p q : List Char) :
    cleaned_password p = p.filter (fun c => c != ' ' && c != '-') ∧
    (p.filter (fun c => c != ' ' && c != '-')
        = q.filter (fun c => c != ' ' && c != '-') →
      cleaned_password p = cleaned_password q) ∧
    ((' ' ∈ p ∨ '-' ∈ p) → cleaned_password p ≠ p) := by
  have hfilter : ∀ r : List Char,
      cleaned_password r = r.filter (fun c => c != ' ' && c != '-') := by
    intro r
    rw [cleaned_password, List.filter_filter]
    exact List.filter_congr (fun a _ => Bool.and_comm _ _)
  refine ⟨hfilter p, ?_, ?_⟩
  · intro h
    rw [hfilter p, hfilter q, h]
  · intro hmem heq
    rw [hfilter p] at heq
    rcases hmem with hs | hh
    · have : ' ' ∈ p.filter (fun c => c != ' ' && c != '-') := heq.symm ▸ hs
      have := (List.mem_filter.mp this).2
      simp at this
    · have : '-' ∈ p.filter (fun c => c != ' ' && c != '-') := heq.symm ▸ hh
      have := (List.mem_filter.mp this).2
      simp at this

/-- Witness for C9: a password containing a space and a hyphen, its
cleaned form, and the fact that a variant differing only in those
characters cleans identically. -/
theorem C9_password_cleaning_witness :
    cleaned_password "ab c-d".toList = "abcd".toList ∧
    cleaned_password "ab c-d".toList ≠ "ab c-d".toList ∧
    cleaned_password "a bc-d ".toList = cleaned_password "ab c-d".toList := by
  refine ⟨by decide, ?_, ?_⟩
  · exact (C9_password_cleaning "ab c-d".toList []).2.2
      (Or.inl (by decide))
  · exact (C9_password_cleaning "a bc-d ".toList "ab c-d".toList).2.1
      (by decide)

/-- C10: an exception inside the resolver try-block for an asset that does
have a valid capture date (here: os.makedirs raising on its dated
directory) is handled identically to a missing date: the state transition
is literally the same as for the same asset with no date, the item gets
the missing-date message and a skip, and processing continues.  A
directory-creation error is therefore indistinguishable in the output
from a missing date. -/
theorem C10_resolver_catch_all (env : Env) (s : RunState) (p : Photo)
    (d : Date) (hd : p.created = some d)
    (hm : env.mkdirErr (full_path_dir_of d) = true) :
    processPhoto env s p = processPhoto env s { p with created := none } ∧
    processPhoto env s p
        = { s with skipped_count := s.skipped_count + 1,
                   log := s.log ++ [missingDateMsg p.filename] } := by
  have h1 : resolveFails env p = true := by
    rcases p with ⟨fn, created, b⟩
    cases hd
    simpa [resolveFails] using hm
  have h2 : resolveFails env { p with created := none } = true := by
    rcases p with ⟨fn, created, b⟩
    rfl
  have he1 := processPhoto_resolveFails env s p h1
  have he2 := processPhoto_resolveFails env s { p with created := none } h2
  rw [he1, he2]
  exact ⟨rfl, rfl⟩

/-- Environment in which os.makedirs always raises. -/
def envMkdirFail : Env := ⟨fun _ => true⟩

/-- Witness for C10: with makedirs failing, dated photoA is processed
exactly like its undated twin and reported as missing date metadata. -/
theorem C10_resolver_catch_all_witness :
    processPhoto envMkdirFail (initState emptyFS) photoA
        = processPhoto envMkdirFail (initState emptyFS)
            { photoA with created := none } ∧
    processPhoto envMkdirFail (initState emptyFS) photoA
        = { initState emptyFS with
              skipped_count := (initState emptyFS).skipped_count + 1,
              log := (initState emptyFS).log
                ++ [missingDateMsg photoA.filename] } :=
  C10_resolver_catch_all envMkdirFail (initState emptyFS) photoA
    ⟨2023, 5⟩ rfl rfl

/-- C2 (amended): when the transfer of an asset fails after k chunks of
the rendition stream have been consumed, the error is caught, the asset
is counted as skipped and reported with the download-error message, and
downloading continues — but the destination file DOES remain visible
under its final name, holding exactly the concatenation of the first k
chunks, because the file is opened directly at its final path
(line 100). -/
theorem C2_truncated_write_remains (env : Env) (s : RunState) (p : Photo)
    (d : Date) (content : List Nat) (k : Nat) (emsg : String)
    (hd : p.created = some d)
    (hb : p.behavior = .stream content (some (k, emsg)))
    (hm : env.mkdirErr (full_path_dir_of d) = false)
    (habs : s.fs.files (full_path_of d p.filename) = none) :
    (processPhoto env s p).fs.files (full_path_of d p.filename)
        = some (((iterContent 1048576 content).take k).flatten) ∧
    (processPhoto env s p).skipped_count = s.skipped_count + 1 ∧
    (processPhoto env s p).downloaded_count = s.downloaded_count ∧
    (processPhoto env s p).log
        = s.log ++ [downloadErrorMsg p.filename emsg] := by
  rw [processPhoto_streamFail env s p d content k emsg hd hb hm habs]
  refine ⟨?_, rfl, rfl, rfl⟩
  simp [FS.writeFile, FS.mkdirs]

/-- Rendition one byte longer than one chunk: its stream has exactly two
chunks. -/
def bigContent : List Nat := List.replicate 1048576 7 ++ [9]

/-- Asset whose stream raises after the first of its two chunks. -/
def photoMid : Photo :=
  ⟨"clip.mov", some ⟨2023, 5⟩, .stream bigContent (some (1, "reset"))⟩

/-- Counterexample to C2 as stated: the stream of photoMid has two chunks and
fails after one (midway), yet after processing, the destination file
exists under its final name with the partial content of the first chunk —
nonempty and different from the full rendition. -/
theorem C2_counterexample :
    (iterContent 1048576 bigContent).length = 2 ∧
    (processPhoto envOk (initState emptyFS) photoMid).fs.files
        (full_path_of ⟨2023, 5⟩ "clip.mov")
      = some (List.replicate 1048576 7) ∧
    List.replicate 1048576 7 ≠ bigContent ∧
    List.replicate 1048576 7 ≠ ([] : List Nat) := by
  have hrlen : (List.replicate 1048576 (7 : Nat)).length = 1048576 :=
    List.length_replicate 1048576 7
  have hchunks : iterContent 1048576 bigContent
      = [List.replicate 1048576 7, [9]] := by
    rw [bigContent,
      iterContent_append 1048576 (List.replicate 1048576 7) [9] hrlen
        (by decide) (by simp)]
    rw [iterContent, if_neg (by simp),
      List.take_of_length_le (by simp), List.drop_eq_nil_of_le (by simp),
      iterContent, if_pos (Or.inl rfl)]
  have hrun := processPhoto_streamFail envOk (initState emptyFS) photoMid
    ⟨2023, 5⟩ bigContent 1 "reset" rfl rfl rfl rfl
  have hbiglen : bigContent.length = 1048577 := by
    rw [bigContent, List.length_append, hrlen]
    decide
  refine ⟨by rw [hchunks]; rfl, ?_, ?_, ?_⟩
  · rw [hrun]
    have htake : (iterContent 1048576 bigContent).take 1
        = [List.replicate 1048576 7] := by rw [hchunks]; rfl
    have hflat : ([List.replicate 1048576 (7 : Nat)] :
        List (List Nat)).flatten = List.replicate 1048576 7 := by
      rw [List.flatten_cons, List.flatten_nil, List.append_nil]
    simp only [FS.writeFile, FS.mkdirs, photoMid, htake, hflat]
    rw [if_pos trivial]
  · intro h
    have hlen := congrArg List.length h
    rw [hrlen, hbiglen] at hlen
    omega
  · intro h
    have hlen := congrArg List.length h
    rw [hrlen, List.length_nil] at hlen
    omega

/-- Asset whose stream raises immediately, before any chunk is written. -/
def photoFail : Photo :=
  ⟨"IMG_F.JPG", some ⟨2023, 5⟩, .stream [1, 2, 3] (some (0, "timeout"))⟩

/-- Witness for the amended C2 on a concrete failing asset. -/
theorem C2_truncated_write_remains_witness :
    (processPhoto envOk (initState emptyFS) photoFail).fs.files
        (full_path_of ⟨2023, 5⟩ photoFail.filename)
      = some (((iterContent 1048576 [1, 2, 3]).take 0).flatten) ∧
    (processPhoto envOk (initState emptyFS) photoFail).skipped_count
      = (initState emptyFS).skipped_count + 1 ∧
    (processPhoto envOk (initState emptyFS) photoFail).downloaded_count
      = (initState emptyFS).downloaded_count ∧
    (processPhoto envOk (initState emptyFS) photoFail).log
      = (initState emptyFS).log
          ++ [downloadErrorMsg photoFail.filename "timeout"] :=
  C2_truncated_write_remains envOk (initState emptyFS) photoFail ⟨2023, 5⟩
    [1, 2, 3] 0 "timeout" rfl rfl rfl rfl

/-- C3: in a run over pre ++ bad :: post in which every asset of
pre ++ post resolves, is absent locally and transfers intact, their
destination paths are pairwise distinct, and the single asset bad fails
its fetch-or-write, the run still completes (download_photos returns a
final state), the final counters are downloaded_count = N - 1 and
skipped_count = 1 for N enumerated assets, and the file of every other asset
is on disk byte-for-byte.  The exception of the failing item never escapes the
per-item loop body: it only turns into its own skip. -/
theorem C3_per_item_isolation (env : Env) (fs0 : FS)
    (pre post : List Photo) (bad : Photo) (s : RunState)
    (hgood : ∀ p ∈ pre ++ post, isGood env p = true)
    (hbadfail : failsBehavior bad.behavior = true)
    (habs : ∀ p ∈ pre ++ post, fs0.files (targetOf p) = none)
    (hdist : List.Pairwise (fun a b => targetOf a ≠ targetOf b)
      (pre ++ bad :: post))
    (hrun : download_photos env fs0 (pre ++ bad :: post) = some s) :
    s.downloaded_count = pre.length + post.length ∧
    s.downloaded_count = (pre ++ bad :: post).length - 1 ∧
    s.skipped_count = 1 ∧
    ∀ p ∈ pre ++ post, s.fs.files (targetOf p) = some (contentOf p) := by
  cases hroot : env.mkdirErr DOWNLOAD_DIR with
  | true => rw [download_photos, if_pos hroot] at hrun; cases hrun
  | false =>
      rw [download_photos, if_neg (by simp [hroot])] at hrun
      injection hrun with hrun
      obtain ⟨hpp, hcp, hcross⟩ := List.pairwise_append.mp hdist
      obtain ⟨hbadpost, hpostp⟩ := List.pairwise_cons.mp hcp
      have hgpre : ∀ p ∈ pre, isGood env p = true :=
        fun p hp => hgood p (List.mem_append_left post hp)
      have hgpost : ∀ p ∈ post, isGood env p = true :=
        fun p hp => hgood p (List.mem_append_right pre hp)
      have hst0 : (initState (fs0.mkdirs DOWNLOAD_DIR)).fs.files
          = fs0.files := rfl
      have habspre : ∀ p ∈ pre,
          (initState (fs0.mkdirs DOWNLOAD_DIR)).fs.files (targetOf p)
            = none := by
        intro p hp
        rw [hst0]
        exact habs p (List.mem_append_left post hp)
      obtain ⟨hpreD, hpreK, hpreF, hpreFr⟩ :=
        runPhotos_good env pre (initState (fs0.mkdirs DOWNLOAD_DIR))
          hgpre habspre hpp
      rw [runPhotos_append] at hrun
      rw [runPhotos_cons] at hrun
      set sPre := runPhotos env (initState (fs0.mkdirs DOWNLOAD_DIR)) pre
        with hsPre
      set sBad := processPhoto env sPre bad with hsBad
      have hbadskip : skipsOn env sPre.fs bad = true := by
        simp [skipsOn, hbadfail]
      obtain ⟨hbadD, hbadK⟩ := processPhoto_skips env sPre bad hbadskip
      have hprebad : ∀ p ∈ pre, targetOf p ≠ targetOf bad :=
        fun p hp => hcross p hp bad (List.mem_cons_self bad post)
      have hprepost : ∀ p ∈ pre, ∀ r ∈ post, targetOf p ≠ targetOf r :=
        fun p hp r hr => hcross p hp r (List.mem_cons_of_mem bad hr)
      have habspost : ∀ p ∈ post, sBad.fs.files (targetOf p) = none := by
        intro p hp
        rw [hsBad, processPhoto_files_frame env sPre bad (targetOf p)
          (Ne.symm (hbadpost p hp))]
        rw [hsPre, hpreFr (targetOf p)
          (fun r hr => Ne.symm (hprepost r hr p hp)), hst0]
        exact habs p (List.mem_append_right pre hp)
      obtain ⟨hpostD, hpostK, hpostF, hpostFr⟩ :=
        runPhotos_good env post sBad hgpost habspost hpostp
      rw [← hrun]
      refine ⟨?_, ?_, ?_, ?_⟩
      · rw [hpostD, hsBad, hbadD, hsPre, hpreD]
        simp [initState]
      · rw [hpostD, hsBad, hbadD, hsPre, hpreD]
        simp [initState, List.length_append, List.length_cons]
      · rw [hpostK, hsBad, hbadK, hsPre, hpreK]
        simp [initState]
      · intro p hp
        rcases List.mem_append.mp hp with h | h
        · rw [hpostFr (targetOf p) (fun r hr => hprepost p h r hr)]
          rw [hsBad, processPhoto_files_frame env sPre bad (targetOf p)
            (hprebad p h)]
          exact hpreF p h
        · exact hpostF p h

/-- Asset whose fetch raises outright. -/
def photoB : Photo := ⟨"IMG_B.JPG", some ⟨2023, 5⟩, .fetchError "network"⟩

/-- Dated asset with a one-byte rendition in another month. -/
def photoC : Photo := ⟨"IMG_C.JPG", some ⟨2023, 6⟩, .stream [3] none⟩

/-- Witness for C3: run [photoA, photoB, photoC] with photoB failing;
2 = N - 1 downloads, 1 skip, and the bytes of photoA are intact on disk. -/
theorem C3_per_item_isolation_witness :
    (runPhotos envOk (initState (emptyFS.mkdirs DOWNLOAD_DIR))
        [photoA, photoB, photoC]).downloaded_count = 2 ∧
    (runPhotos envOk (initState (emptyFS.mkdirs DOWNLOAD_DIR))
        [photoA, photoB, photoC]).skipped_count = 1 ∧
    (runPhotos envOk (initState (emptyFS.mkdirs DOWNLOAD_DIR))
        [photoA, photoB, photoC]).fs.files (targetOf photoA)
      = some (contentOf photoA) := by
  have h := C3_per_item_isolation envOk emptyFS [photoA] [photoC] photoB _
    (by decide) (by decide) (by decide) (by decide) rfl
  exact ⟨h.1, h.2.2.1, h.2.2.2 photoA (by decide)⟩
